import Mathlib

/-!
Verification development for the Marimo notebook `analysis.py`.

The repository is a single notebook script with seven cells
(imports, widgets, data, analysis, summary, plot, preview).  We give a
shallow embedding of the cells' compute functions and of the reactive
graph evaluator that the script relies on.  Numeric values are embedded
as rationals; the pseudorandom standard-normal draws of
`numpy.random.default_rng(seed)` are abstracted as a stream family
`G : ℕ → ℕ → ℚ` (seed to indexed draws), and float `sqrt` is abstracted
as a function parameter, so every theorem quantifies over them.
-/

/-- A marimo UI slider, as built by `mo.ui.slider(start, stop, step, value, label)`. -/
structure Slider where
  start : ℚ
  stop : ℚ
  step : ℚ
  value : ℚ
  label : String
deriving DecidableEq

/-- Source: `n = mo.ui.slider(start=50, stop=2000, step=50, value=500, label="Sample size (n)")`. -/
def nSlider : Slider := ⟨50, 2000, 50, 500, "Sample size (n)"⟩

/-- Source: `sigma = mo.ui.slider(start=0.1, stop=5.0, step=0.1, value=1.0, label="Noise σ")`. -/
def sigmaSlider : Slider := ⟨1/10, 5, 1/10, 1, "Noise σ"⟩

/-- Python `int(...)` on a numeric value: truncation toward zero. -/
def pyInt (q : ℚ) : ℤ := if 0 ≤ q then ⌊q⌋ else ⌈q⌉

/-- Python `float(...)` on a numeric value: the identity in this embedding. -/
def pyFloat (q : ℚ) : ℚ := q

/-- State of a numpy `Generator`: its stream of standard-normal draws and
the number of draws consumed so far. -/
structure RNG where
  stream : ℕ → ℚ
  pos : ℕ

/-- `np.random.default_rng(seed)`: a fresh generator at position 0 whose
draw stream is determined by the seed alone. -/
def default_rng (G : ℕ → ℕ → ℚ) (seed : ℕ) : RNG := ⟨G seed, 0⟩

/-- `rng.normal(loc, scale, size)`: `size` variates `loc + scale * draw`,
advancing the generator state by `size` draws. -/
def RNG.normal (r : RNG) (loc scale : ℚ) (size : ℕ) : List ℚ × RNG :=
  ((List.range size).map (fun i => loc + scale * r.stream (r.pos + i)),
   ⟨r.stream, r.pos + size⟩)

/-- The literal seed in the source line `rng = np.random.default_rng(42)`. -/
def dataSeed : ℕ := 42

/-- A pandas DataFrame: named columns of rationals, in order. -/
structure DataFrame where
  cols : List (String × List ℚ)
deriving DecidableEq

/-- `df[c]`: the values of column `c` (empty if absent). -/
def DataFrame.col (df : DataFrame) (c : String) : List ℚ :=
  ((df.cols.find? (fun p => p.1 == c)).map (fun p => p.2)).getD []

/-- The column names of the frame, in order. -/
def DataFrame.colNames (df : DataFrame) : List String :=
  df.cols.map (fun p => p.1)

/-- `len(df)`: the number of rows (length of the first column). -/
def DataFrame.nrows (df : DataFrame) : ℕ :=
  match df.cols with
  | [] => 0
  | c :: _ => c.2.length

/-- The `data` cell's compute function (source lines 39-47):
`rng = np.random.default_rng(42)`; `size = int(n.value)`;
`x = rng.normal(0.0, 1.0, size=size)`;
`y = 2.0 * x + rng.normal(0.0, float(sigma.value), size=size)`;
`df = pd.DataFrame({"x": x, "y": y})`. -/
def dataDF (G : ℕ → ℕ → ℚ) (n sigma : Slider) : DataFrame :=
  let rng := default_rng G dataSeed
  let size := (pyInt n.value).toNat
  let xr := rng.normal 0 1 size
  let noiser := xr.2.normal 0 (pyFloat sigma.value) size
  let y := (xr.1.zip noiser.1).map (fun p => 2 * p.1 + p.2)
  ⟨[("x", xr.1), ("y", y)]⟩

/-- Arithmetic mean of a list of rationals. -/
def listMean (xs : List ℚ) : ℚ := xs.sum / (xs.length : ℚ)

/-- Sample covariance (ddof = 1, as numpy uses inside `corrcoef`). -/
def listCov (xs ys : List ℚ) : ℚ :=
  (((xs.zip ys).map (fun p => (p.1 - listMean xs) * (p.2 - listMean ys))).sum)
    / ((xs.length : ℚ) - 1)

/-- Modelled from the spec and numpy's documented semantics (numpy is an
external library, not part of src/): `np.corrcoef(x, y)` is the 2x2 matrix
`R i j = C i j / (sqrt (C i i) * sqrt (C j j))` over the sample covariance
matrix `C`, with `sqrt` abstracted as the parameter `sq`. -/
def corrcoef (sq : ℚ → ℚ) (x y : List ℚ) : Fin 2 → Fin 2 → ℚ :=
  fun i j =>
    let v : Fin 2 → List ℚ := fun k => if k = (0 : Fin 2) then x else y
    listCov (v i) (v j) / (sq (listCov (v i) (v i)) * sq (listCov (v j) (v j)))

/-- The `analysis` cell's compute function (source line 54):
`corr = float(np.corrcoef(df["x"], df["y"])[0, 1])`. -/
def analysisCorr (sq : ℚ → ℚ) (df : DataFrame) : ℚ :=
  pyFloat (corrcoef sq (df.col "x") (df.col "y") 0 1)

/-- Sample variance of a list: `s² = cov(xs, xs)`. -/
def varSpec (xs : List ℚ) : ℚ := listCov xs xs

/-- Modelled from the spec: the Pearson correlation coefficient of two
series, `r = s_xy / (s_x * s_y)` with sample (co)variances and the same
abstract square root `sq`.  This is the refinement target the spec's
words describe for the `analysis` cell. -/
def pearsonSpec (sq : ℚ → ℚ) (x y : List ℚ) : ℚ :=
  listCov x y / (sq (varSpec x) * sq (varSpec y))

/-- A matplotlib figure as the `plot` cell builds it: scattered points and
axis labels/title. -/
structure Figure where
  points : List (ℚ × ℚ)
  xlabel : String
  ylabel : String
  title : String
deriving DecidableEq

/-- The `plot` cell's compute function (source lines 81-87). -/
def plotFig (df : DataFrame) : Figure :=
  ⟨(df.col "x").zip (df.col "y"), "x", "y", "Scatter plot of y vs x"⟩

/-- The rendered markdown of the `summary` cell, reduced to the three
interpolated numbers (string templating itself carries no claim). -/
structure Md where
  nShown : ℤ
  sigmaShown : ℚ
  corrShown : ℚ
deriving DecidableEq

/-- A Python value as it flows between cells in this notebook. -/
inductive PyVal where
  | num : ℚ → PyVal
  | df : DataFrame → PyVal
  | slider : Slider → PyVal
  | fig : Figure → PyVal
  | md : Md → PyVal
  | pymodule : String → PyVal
  | none : PyVal
deriving DecidableEq

/-- Attribute access `obj.value`: sliders have a numeric `.value`; on any
other value (in particular `None`) it raises `AttributeError`. -/
def pyGetValue : PyVal → Except String ℚ
  | .slider s => .ok s.value
  | _ => .error "AttributeError: object has no attribute value"

/-- The `summary` cell's compute function (source lines 61-74): the
f-string evaluates `int(n.value)`, then `float(sigma.value)`, then
formats `corr` with `:.3f`, which raises `TypeError` unless `corr` is a
number.  Parameters default to `None` in the source. -/
def summaryImpl (n sigma corr : PyVal) : Except String Md :=
  match pyGetValue n with
  | .error e => .error e
  | .ok nv =>
    match pyGetValue sigma with
    | .error e => .error e
    | .ok sv =>
      match corr with
      | .num c => .ok ⟨pyInt nv, pyFloat sv, c⟩
      | _ => .error "TypeError: unsupported format string passed to NoneType"

/-- Whether a value is a slider object (has a numeric `.value`). -/
def isSliderV : PyVal → Bool
  | .slider _ => true
  | _ => false

/-- Whether a value is a plain number. -/
def isNumV : PyVal → Bool
  | .num _ => true
  | _ => false

/-- Whether an `Except` computation succeeded. -/
def exOk {ε α : Type} : Except ε α → Bool
  | .ok _ => true
  | .error _ => false

/-! ## The static cell graph of the file

Names, parameter names and returned names of the seven `@app.cell`
declarations, in declaration order. -/

/-- The seven cells of `analysis.py`. -/
inductive CName where
  | imports | widgets | data | analysis | summary | plot | preview
deriving DecidableEq

/-- Declared name, parameter names and returned names of each cell,
exactly as in the source. -/
def cellSig : CName → String × List String × List String
  | .imports => ("imports", [], ["np", "pd", "plt"])
  | .widgets => ("widgets", ["mo"], ["n", "sigma"])
  | .data => ("data", ["np", "pd", "n", "sigma"], ["df"])
  | .analysis => ("analysis", ["np", "df"], ["corr"])
  | .summary => ("summary", ["mo", "n", "sigma", "corr"], [])
  | .plot => ("plot", ["df", "plt"], ["fig"])
  | .preview => ("preview", ["df"], [])

/-- Parameter names of a cell. -/
def cellInputs (c : CName) : List String := (cellSig c).2.1

/-- Returned names of a cell. -/
def cellOutputs (c : CName) : List String := (cellSig c).2.2

/-- The cells in declaration order. -/
def cellList : List CName :=
  [.imports, .widgets, .data, .analysis, .summary, .plot, .preview]

/-- Position of a cell in declaration order. -/
def declPos : CName → ℕ
  | .imports => 0
  | .widgets => 1
  | .data => 2
  | .analysis => 3
  | .summary => 4
  | .plot => 5
  | .preview => 6

/-- Edge of the dependency graph: `a` depends on `b` when one of `a`'s
parameter names matches one of `b`'s returned names. -/
def dependsB (a b : CName) : Bool :=
  (cellInputs a).any (fun i => (cellOutputs b).contains i)

/-- Reachability along dependency edges by a path of at most `k+1` edges. -/
def reachB : ℕ → CName → CName → Bool
  | 0, a, b => dependsB a b
  | k + 1, a, b => dependsB a b || cellList.any (fun m => dependsB a m && reachB k m b)

/-- No cell reaches itself through dependency edges (paths of length up to
seven suffice over seven cells). -/
def acyclicB : Bool := cellList.all (fun a => ! reachB 6 a a)

/-- Declaration order respects every dependency edge: each cell appears
after every cell producing one of its inputs. -/
def topoB : Bool :=
  cellList.all (fun a => cellList.all (fun b =>
    ! dependsB a b || decide (declPos b < declPos a)))

/-- All returned names of the file, cell by cell in declaration order. -/
def allOutputs : List String :=
  cellOutputs .imports ++ cellOutputs .widgets ++ cellOutputs .data ++
  cellOutputs .analysis ++ cellOutputs .summary ++ cellOutputs .plot ++
  cellOutputs .preview

/-! ## Claims about the data cell, the analysis cell and the static graph -/

/-- Claim C2: for every slider value `n` (nonnegative, as slider values
are) and every `sigma`, the data cell produces a frame with columns
`x`, `y`, exactly `int(n)` rows, `x` the seed-42 standard draws and
`y i = 2 * x i` plus Gaussian noise of standard deviation `sigma`
(the `sigma`-scaled next draws of the same fixed-seed stream). -/
theorem c2_data_shape (G : ℕ → ℕ → ℚ) (n sigma : Slider)
    (h : 0 ≤ pyInt n.value) :
    (dataDF G n sigma).colNames = ["x", "y"] ∧
    ((dataDF G n sigma).nrows : ℤ) = pyInt n.value ∧
    (dataDF G n sigma).col "x" =
      (List.range (pyInt n.value).toNat).map (fun i => G dataSeed i) ∧
    (dataDF G n sigma).col "y" =
      (List.range (pyInt n.value).toNat).map
        (fun i => 2 * G dataSeed i +
          sigma.value * G dataSeed ((pyInt n.value).toNat + i)) := by
  refine ⟨rfl, ?_, ?_, ?_⟩
  · show (((List.range (pyInt n.value).toNat).map _).length : ℤ) = _
    simp [Int.toNat_of_nonneg h]
  · show (List.range (pyInt n.value).toNat).map _ = _
    simp [default_rng, RNG.normal]
  · show ((((List.range (pyInt n.value).toNat).map _).zip
      (((List.range (pyInt n.value).toNat)).map _)).map _) = _
    rw [List.zip_map']
    simp [pyFloat, default_rng, RNG.normal, mul_comm]

/-- Witness for C2 at the source's own slider values `n = 500`,
`sigma = 1.0`. -/
theorem c2_data_shape_witness :
    0 ≤ pyInt nSlider.value ∧
    ((dataDF (fun _ _ => 0) nSlider sigmaSlider).nrows : ℤ) =
      pyInt nSlider.value := by
  have h : 0 ≤ pyInt nSlider.value := by decide
  exact ⟨h, (c2_data_shape (fun _ _ => 0) nSlider sigmaSlider h).2.1⟩

/-- Claim C3: for every DataFrame, the analysis cell returns exactly the
Pearson correlation coefficient of `df["x"]` and `df["y"]` — the `[0, 1]`
entry of the 2x2 correlation matrix — converted with `float`. -/
theorem c3_analysis_pearson (sq : ℚ → ℚ) (df : DataFrame) :
    analysisCorr sq df = pearsonSpec sq (df.col "x") (df.col "y") := by
  rfl

/-- Claim C9 (implicit): the `x` column does not depend on `sigma`: for a
fixed `n` and any two sigma sliders the data cell produces identical `x`
columns, because the generator is freshly seeded with 42 and `x` is drawn
before `sigma` is consumed. -/
theorem c9_x_independent_of_sigma (G : ℕ → ℕ → ℚ) (n s1 s2 : Slider) :
    (dataDF G n s1).col "x" = (dataDF G n s2).col "x" := by
  rfl

/-- Counterexample to claim C5 as stated: the data cell's parameter list
(from the source) contains no seed parameter at all, and the generator
seed is the hard-coded literal 42 — the seed is an internal constant, not
an input provided by the caller. -/
theorem c5_counterexample :
    cellInputs .data = ["np", "pd", "n", "sigma"] ∧
    (cellInputs .data).contains "seed" = false ∧
    dataSeed = 42 := by
  decide

/-- Claim C5 as amended: the pseudorandom generation uses a fixed seed,
but it is the internal constant 42 hard-coded in the data cell rather
than caller-supplied: the cell's inputs are exactly `np, pd, n, sigma`,
and its output depends on the stream family only through seed 42. -/
theorem c5_fixed_internal_seed (G G' : ℕ → ℕ → ℚ)
    (h : ∀ i, G dataSeed i = G' dataSeed i) (n sigma : Slider) :
    dataDF G n sigma = dataDF G' n sigma ∧
    dataSeed = 42 ∧ (cellInputs .data).contains "seed" = false := by
  refine ⟨?_, rfl, rfl⟩
  simp [dataDF, default_rng, RNG.normal, h]

/-- One stream family that is 0 at seed 42 and 1 elsewhere. -/
def seedFam1 : ℕ → ℕ → ℚ := fun s _ => if s = 42 then 0 else 1

/-- A second stream family, constantly 0; it agrees with `seedFam1` at
seed 42 only. -/
def seedFam2 : ℕ → ℕ → ℚ := fun _ _ => 0

/-- Witness for the amended C5: two stream families agreeing only at seed
42 give identical data frames. -/
theorem c5_fixed_internal_seed_witness :
    dataDF seedFam1 nSlider sigmaSlider = dataDF seedFam2 nSlider sigmaSlider := by
  exact (c5_fixed_internal_seed seedFam1 seedFam2
    (fun i => by simp [seedFam1, seedFam2, dataSeed]) nSlider sigmaSlider).1

/-- Claim C6: the dependency graph over the seven cells (edge from A to B
when one of A's parameters matches one of B's returned names) is acyclic,
and the declaration order is a topological order: every cell appears after
every cell producing one of its inputs. -/
theorem c6_graph_acyclic_topo : acyclicB = true ∧ topoB = true := by
  decide

/-- Claim C7: each output name is produced by exactly one cell: the
returned names of the seven cells, concatenated in declaration order, are
`np, pd, plt, n, sigma, df, corr, fig` with no duplicate. -/
theorem c7_outputs_unique :
    allOutputs = ["np", "pd", "plt", "n", "sigma", "df", "corr", "fig"] ∧
    allOutputs.Nodup := by
  decide

/-- Claim C10 (implicit): `summary`'s parameters default to `None`; the
call raises unless `n` and `sigma` are slider objects with a numeric
`.value` and `corr` is a number, and with any of the three missing it
always raises (`AttributeError` on `None.value` or `TypeError` on
formatting). -/
theorem c10_summary_precondition :
    (∀ s c, exOk (summaryImpl .none s c) = false) ∧
    (∀ nv c, exOk (summaryImpl nv .none c) = false) ∧
    (∀ nv s, exOk (summaryImpl nv s .none) = false) ∧
    (∀ nv s c, exOk (summaryImpl nv s c) =
      (isSliderV nv && isSliderV s && isNumV c)) := by
  refine ⟨fun s c => rfl, fun nv c => ?_, fun nv s => ?_, fun nv s c => ?_⟩
  · cases nv <;> rfl
  · cases nv <;> cases s <;> rfl
  · cases nv <;> cases s <;> cases c <;> rfl

/-! ## The reactive graph evaluator

Modelled from the spec: the reactive dependency graph between cells is
delegated to the external notebook framework and is not implemented in
src/; the definitions below follow the spec's REACTIVE COMPUTATION GRAPH
model (sections 3, 4.2): cells with declared inputs/outputs, mutable
value cells as leaves, `notify` marking the forward transitive closure of
changed value cells stale, and `evaluate` walking the cells in
(declaration) topological order, recomputing exactly the stale cells and
containing compute failures to the failing cell and its dependents. -/

/-- Per-cell recompute state.  `Computing` is transient within a single
synchronous `evaluate` step and is never observable between steps. -/
inductive CellState where
  | Stale | Computing | Fresh | Errored
deriving DecidableEq

/-- Whether a state is the error state. -/
def isErroredSt : CellState → Bool
  | .Errored => true
  | _ => false

/-- A registered cell of the evaluator: name, declared input names,
declared output names, and the compute function, which reads resolved
inputs from an environment and either returns named outputs or raises. -/
structure RCell where
  name : String
  inputs : List String
  outputs : List String
  compute : (String → Option PyVal) → Except String (List (String × PyVal))

/-- Evaluator state: cached output values (value cells included), the
per-cell state, and the names of cells currently marked stale. -/
structure RState where
  env : String → Option PyVal
  status : String → CellState
  stale : List String

/-- Update one binding of a status map. -/
def setSt (f : String → CellState) (nm : String) (v : CellState) :
    String → CellState :=
  fun x => if x = nm then v else f x

/-- Update one binding of an environment (a value-cell mutation). -/
def setVal (e : String → Option PyVal) (k : String) (v : PyVal) :
    String → Option PyVal :=
  fun x => if x = k then some v else e x

/-- Store a cell's returned outputs into the environment. -/
def updateEnv (e : String → Option PyVal) (outs : List (String × PyVal)) :
    String → Option PyVal :=
  fun x =>
    match outs.find? (fun p => p.1 == x) with
    | some p => some p.2
    | Option.none => e x

/-- Forward transitive closure over the cells in topological order:
starting from already-tainted cell names `tc` and tainted signal names
`tn`, a cell is tainted when it is already in `tc` or reads a tainted
name, and then contributes its outputs to `tn`. -/
def closureAux : List RCell → List String → List String → List String × List String
  | [], tc, tn => (tc, tn)
  | c :: rest, tc, tn =>
    if tc.contains c.name || c.inputs.any (fun i => tn.contains i) then
      closureAux rest (tc ++ [c.name]) (tn ++ c.outputs)
    else
      closureAux rest tc tn

/-- The affected set of a value-cell mutation: the forward transitive
closure of the changed names. -/
def affectedCells (g : List RCell) (changed : List String) : List String :=
  (closureAux g [] changed).1

/-- A failing cell together with its downstream dependents: the forward
transitive closure seeded with the failing cell itself. -/
def taintedSet (g : List RCell) (bad : String) : List String :=
  (closureAux g [bad] []).1

/-- `notify(changed)`: mark the affected cells stale; everything else,
including cached outputs, is untouched. -/
def notify (g : List RCell) (changed : List String) (s : RState) : RState :=
  let aff := affectedCells g changed
  ⟨s.env, fun nm => if aff.contains nm then .Stale else s.status nm,
   s.stale ++ aff⟩

/-- Whether some registered cell producing signal `i` is in the error
state. -/
def producerErrored (g : List RCell) (sts : String → CellState) (i : String) :
    Bool :=
  g.any (fun p => p.outputs.contains i && isErroredSt (sts p.name))

/-- One step of `evaluate`: a stale cell is recomputed from its resolved
inputs and becomes `Fresh`; it becomes `Errored` when an upstream
producer is errored, an input is unresolved, or its compute function
raises.  Non-stale cells are skipped, keeping their cached outputs.  The
second component records which compute functions actually ran. -/
def evalStep (g : List RCell) (acc : RState × List String) (c : RCell) :
    RState × List String :=
  let st := acc.1
  let ran := acc.2
  if st.stale.contains c.name then
    if c.inputs.any (fun i => producerErrored g st.status i) then
      (⟨st.env, setSt st.status c.name .Errored, st.stale⟩, ran)
    else if c.inputs.all (fun i => (st.env i).isSome) then
      match c.compute st.env with
      | .ok outs =>
        (⟨updateEnv st.env outs, setSt st.status c.name .Fresh, st.stale⟩,
         ran ++ [c.name])
      | .error _ =>
        (⟨st.env, setSt st.status c.name .Errored, st.stale⟩, ran ++ [c.name])
    else
      (⟨st.env, setSt st.status c.name .Errored, st.stale⟩, ran)
  else acc

/-- `evaluate()`: walk all cells in topological (declaration) order,
recomputing the stale ones; afterwards nothing is stale.  Total: a
raising compute function never makes `evaluate` itself fail.  Also
returns the names of the cells whose compute functions ran. -/
def evaluate (g : List RCell) (s : RState) : RState × List String :=
  let r := g.foldl (evalStep g) (s, [])
  (⟨r.1.env, r.1.status, []⟩, r.2)

/-- The state at graph construction: value cells hold their initial
values, every cell is `Stale`. -/
def initState (g : List RCell) (env0 : String → Option PyVal) : RState :=
  ⟨env0, fun _ => .Stale, g.map (fun c => c.name)⟩

/-! ## The notebook instantiated in the evaluator

Per the spec's input boundary, the two sliders are the value cells
`n` and `sigma` (the `widgets` cell is their presentation-layer
declaration), and the remaining cells are registered with the inputs and
outputs they declare in the source; each compute function is the shallow
embedding of the cell body from src/analysis.py. -/

/-- The `imports` cell: no inputs, provides the three library modules. -/
def importsCell : RCell :=
  ⟨"imports", [], ["np", "pd", "plt"], fun _ =>
    .ok [("np", .pymodule "numpy"), ("pd", .pymodule "pandas"),
         ("plt", .pymodule "matplotlib.pyplot")]⟩

/-- The `data` cell wired into the evaluator. -/
def dataCell (G : ℕ → ℕ → ℚ) : RCell :=
  ⟨"data", ["np", "pd", "n", "sigma"], ["df"], fun f =>
    match f "n", f "sigma" with
    | some (.slider ns), some (.slider ss) => .ok [("df", .df (dataDF G ns ss))]
    | _, _ => .error "TypeError"⟩

/-- The `analysis` cell wired into the evaluator. -/
def analysisCell (sq : ℚ → ℚ) : RCell :=
  ⟨"analysis", ["np", "df"], ["corr"], fun f =>
    match f "df" with
    | some (.df d) => .ok [("corr", .num (analysisCorr sq d))]
    | _ => .error "TypeError"⟩

/-- The `summary` cell wired into the evaluator (no outputs; it renders). -/
def summaryCell : RCell :=
  ⟨"summary", ["n", "sigma", "corr"], [], fun f =>
    match summaryImpl ((f "n").getD .none) ((f "sigma").getD .none)
        ((f "corr").getD .none) with
    | .ok _ => .ok []
    | .error e => .error e⟩

/-- The `plot` cell wired into the evaluator. -/
def plotCell : RCell :=
  ⟨"plot", ["df", "plt"], ["fig"], fun f =>
    match f "df" with
    | some (.df d) => .ok [("fig", .fig (plotFig d))]
    | _ => .error "TypeError"⟩

/-- The `preview` cell wired into the evaluator (renders `df.head(12)`). -/
def previewCell : RCell :=
  ⟨"preview", ["df"], [], fun f =>
    match f "df" with
    | some (.df _) => .ok []
    | _ => .error "TypeError"⟩

/-- The notebook's cells in declaration order. -/
def programGraph (G : ℕ → ℕ → ℚ) (sq : ℚ → ℚ) : List RCell :=
  [importsCell, dataCell G, analysisCell sq, summaryCell, plotCell, previewCell]

/-- The initial value cells: the two sliders at their source defaults
`n = 500`, `sigma = 1.0`. -/
def progEnv0 : String → Option PyVal :=
  fun k =>
    if k = "n" then some (.slider nSlider)
    else if k = "sigma" then some (.slider sigmaSlider)
    else Option.none

/-- The sigma slider moved to 5.0, as in the spec's concrete scenario. -/
def sigma5Slider : Slider := { sigmaSlider with value := 5 }


/-- The state after the first full `evaluate()` from construction, with
the sliders at their defaults. -/
def progRun1 (G : ℕ → ℕ → ℚ) (sq : ℚ → ℚ) : RState :=
  (evaluate (programGraph G sq) (initState (programGraph G sq) progEnv0)).1

/-- The spec's sigma scenario: mutate the `sigma` value cell to 5.0, then
`notify(["sigma"])`, then `evaluate()`. -/
def progSigmaRun (G : ℕ → ℕ → ℚ) (sq : ℚ → ℚ) : RState × List String :=
  evaluate (programGraph G sq)
    (notify (programGraph G sq) ["sigma"]
      ⟨setVal (progRun1 G sq).env "sigma" (.slider sigma5Slider),
       (progRun1 G sq).status, (progRun1 G sq).stale⟩)


/-- A concrete stream family (all draws 0), for closed counterexamples. -/
def constStream : ℕ → ℕ → ℚ := fun _ _ => 0

/-- A concrete stand-in for float sqrt, for closed counterexamples. -/
def idSqrt : ℚ → ℚ := fun q => q

/-- With nothing stale, the `evaluate` fold skips every cell. -/
theorem foldl_no_stale (g cells : List RCell) (s : RState) (ran : List String)
    (h : s.stale = []) : cells.foldl (evalStep g) (s, ran) = (s, ran) := by
  induction cells with
  | nil => rfl
  | cons c rest ih =>
    rw [List.foldl_cons]
    have hstep : evalStep g (s, ran) c = (s, ran) := by
      simp [evalStep, h, List.contains, List.elem]
    rw [hstep, ih]

/-- A consecutive `evaluate()` with no intervening `notify` runs no
compute function and leaves every cached output unchanged. -/
theorem evaluate_no_stale (g : List RCell) (s : RState) (h : s.stale = []) :
    evaluate g s = (⟨s.env, s.status, []⟩, []) := by
  unfold evaluate
  rw [foldl_no_stale g g s [] h]

set_option maxHeartbeats 1600000 in
/-- Claim C1: with the fixed slider values `n = 500`, `sigma = 1.0`, the
first `evaluate()` caches the data frame and the correlation computed by
the cells' (deterministic, fixed-seed) compute functions, and a second
consecutive `evaluate()` with no intervening `notify` runs no compute
function and returns the bit-identical `df` and the identical `corr`. -/
theorem c1_idempotent_reeval (G : ℕ → ℕ → ℚ) (sq : ℚ → ℚ) :
    (progRun1 G sq).env "df" = some (.df (dataDF G nSlider sigmaSlider)) ∧
    (progRun1 G sq).env "corr" =
      some (.num (analysisCorr sq (dataDF G nSlider sigmaSlider))) ∧
    (evaluate (programGraph G sq) (progRun1 G sq)).1.env "df" =
      (progRun1 G sq).env "df" ∧
    (evaluate (programGraph G sq) (progRun1 G sq)).1.env "corr" =
      (progRun1 G sq).env "corr" ∧
    (evaluate (programGraph G sq) (progRun1 G sq)).2 = [] := by
  have hstale : (progRun1 G sq).stale = [] := rfl
  have h2 := evaluate_no_stale (programGraph G sq) (progRun1 G sq) hstale
  have hrun : (progRun1 G sq).env "df" = some (.df (dataDF G nSlider sigmaSlider)) ∧
      (progRun1 G sq).env "corr" =
        some (.num (analysisCorr sq (dataDF G nSlider sigmaSlider))) := by
    simp [progRun1, programGraph, evaluate, initState, importsCell, dataCell,
      analysisCell, summaryCell, plotCell, previewCell, evalStep, producerErrored,
      isErroredSt, setSt, updateEnv, setVal, progEnv0, summaryImpl, pyGetValue,
      List.contains, List.elem, List.find?]
  exact ⟨hrun.1, hrun.2, by rw [h2], by rw [h2], by rw [h2]⟩

set_option maxHeartbeats 12000000 in
/-- Counterexample to claim C4 as stated: after changing `sigma` and
calling `notify(["sigma"])` then `evaluate()`, the cells whose compute
functions run are data, analysis, summary, plot and preview — not
`data` and `analysis` only: `summary` (which reads `sigma` and `corr`),
`plot` and `preview` (which read `df`) are recomputed too. -/
theorem c4_counterexample :
    (progSigmaRun constStream idSqrt).2 =
      ["data", "analysis", "summary", "plot", "preview"] ∧
    (progSigmaRun constStream idSqrt).2 ≠ ["data", "analysis"] := by
  have h : (progSigmaRun constStream idSqrt).2 =
      ["data", "analysis", "summary", "plot", "preview"] := by
    simp [progSigmaRun, progRun1, programGraph, evaluate, initState, importsCell,
      dataCell, analysisCell, summaryCell, plotCell, previewCell, evalStep,
      producerErrored, isErroredSt, setSt, updateEnv, setVal, progEnv0,
      summaryImpl, pyGetValue, notify, affectedCells, closureAux, sigma5Slider,
      List.contains, List.elem, List.find?]
  refine ⟨h, ?_⟩
  rw [h]
  decide

set_option maxHeartbeats 12000000 in
/-- Claim C4 as amended: `notify(["sigma"])` then `evaluate()` recomputes
exactly the affected cells — the five cells downstream of `sigma` (data,
analysis, summary, plot, preview) — in dependency order, once each, and
every cell not downstream of `sigma` (imports; no cell of this program
depends solely on `n`) keeps its cached outputs untouched and stays
`Fresh`. -/
theorem c4_sigma_recompute_set (G : ℕ → ℕ → ℚ) (sq : ℚ → ℚ) :
    (progSigmaRun G sq).2 = ["data", "analysis", "summary", "plot", "preview"] ∧
    affectedCells (programGraph G sq) ["sigma"] =
      ["data", "analysis", "summary", "plot", "preview"] ∧
    (progSigmaRun G sq).1.env "np" = (progRun1 G sq).env "np" ∧
    (progSigmaRun G sq).1.env "pd" = (progRun1 G sq).env "pd" ∧
    (progSigmaRun G sq).1.env "plt" = (progRun1 G sq).env "plt" ∧
    (progSigmaRun G sq).1.status "imports" = CellState.Fresh ∧
    (progSigmaRun G sq).1.env "df" =
      some (.df (dataDF G nSlider sigma5Slider)) := by
  simp [progSigmaRun, progRun1, programGraph, evaluate, initState, importsCell,
    dataCell, analysisCell, summaryCell, plotCell, previewCell, evalStep,
    producerErrored, isErroredSt, setSt, updateEnv, setVal, progEnv0,
    summaryImpl, pyGetValue, notify, affectedCells, closureAux, sigma5Slider,
    List.contains, List.elem, List.find?]

/-! ## Fault containment (spec sections 4.2 and 7)

The invariant of the `evaluate` fold from an all-stale start, used to
prove that a raising compute function is contained to the failing cell
and its downstream dependents while unrelated branches still compute. -/

/-- Well-formed registration in topological order: each cell's inputs are
value-cell names or outputs of earlier cells. -/
def wfFromB (avail : List String) : List RCell → Bool
  | [] => true
  | c :: rest =>
    c.inputs.all (fun i => avail.contains i) && wfFromB (avail ++ c.outputs) rest

theorem strContains_iff (l : List String) (a : String) :
    l.contains a = true ↔ a ∈ l := by
  simp

theorem isErroredSt_iff (s : CellState) :
    isErroredSt s = true ↔ s = CellState.Errored := by
  cases s <;> simp [isErroredSt]

theorem updateEnv_isSome (e : String → Option PyVal)
    (outs : List (String × PyVal)) (x : String) :
    (updateEnv e outs x).isSome = true ↔
      x ∈ outs.map (fun p => p.1) ∨ (e x).isSome = true := by
  unfold updateEnv
  cases h : outs.find? (fun p => p.1 == x) with
  | none =>
    have hall := List.find?_eq_none.mp h
    constructor
    · intro hs
      exact Or.inr hs
    · rintro (hx | hs)
      · obtain ⟨p, hp, hpx⟩ := List.mem_map.mp hx
        exact absurd (by simpa using hpx) (by simpa using hall p hp)
      · exact hs
  | some p =>
    have hm := List.mem_of_find?_eq_some h
    have hpx : p.1 = x := by simpa using List.find?_some h
    simp only [Option.isSome_some, true_iff]
    exact Or.inl (List.mem_map.mpr ⟨p, hm, hpx⟩)

/-- Invariant of the `evaluate` fold when exactly the cells named `bad`
always raise and every other compute function succeeds with its declared
outputs: a cell ends `Errored` exactly when the forward closure (seeded
with the already-tainted names) contains it, and `Fresh` otherwise. -/
theorem evalFold_status
    (g : List RCell) (env0 : String → Option PyVal) (env0keys : List String)
    (bad : String)
    (henv : ∀ i, i ∈ env0keys → (env0 i).isSome = true)
    (hnames : (g.map (fun c => c.name)).Nodup)
    (hbad : ∀ c ∈ g, c.name = bad →
      ∀ f, ∃ e, c.compute f = Except.error e)
    (hok : ∀ c ∈ g, c.name ≠ bad →
      ∀ f, ∃ outs, c.compute f = Except.ok outs ∧
        outs.map (fun p => p.1) = c.outputs) :
    ∀ (rest done : List RCell) (st : RState) (ran tc tn : List String),
    g = done ++ rest →
    wfFromB (env0keys ++ ((done.map (fun c => c.outputs)).flatten)) rest = true →
    (∀ nm, st.status nm =
      if nm ∈ done.map (fun c => c.name) then
        (if nm ∈ tc then CellState.Errored else CellState.Fresh)
      else CellState.Stale) →
    (∀ i, ((st.env i).isSome = true) ↔
      ((env0 i).isSome = true ∨ ∃ c ∈ done, c.name ∉ tc ∧ i ∈ c.outputs)) →
    (∀ i, i ∈ tn ↔ ∃ c ∈ done, c.name ∈ tc ∧ i ∈ c.outputs) →
    (∀ nm, nm ∈ tc ↔ (nm = bad ∨ ∃ c ∈ done, c.name = nm ∧ nm ∈ tc)) →
    st.stale = g.map (fun c => c.name) →
    ∀ nm, ((rest.foldl (evalStep g) (st, ran)).1.status nm) =
      (if nm ∈ g.map (fun c => c.name) then
        (if nm ∈ (closureAux rest tc tn).1 then CellState.Errored
         else CellState.Fresh)
      else CellState.Stale) := by
  intro rest
  induction rest with
  | nil =>
    intro done st ran tc tn hg hwf hI1 hI2 hI3 hI4 hI5 nm
    simp only [List.foldl_nil, closureAux]
    rw [hI1 nm, hg]
    simp
  | cons c rest' ih =>
    intro done st ran tc tn hg hwf hI1 hI2 hI3 hI4 hI5 nm
    have hcg : c ∈ g := by
      rw [hg]; exact List.mem_append_right _ (List.mem_cons_self _ _)
    have hmapg : g.map (fun x => x.name) =
        done.map (fun x => x.name) ++ c.name :: rest'.map (fun x => x.name) := by
      rw [hg]; simp
    have hnd : (done.map (fun x => x.name) ++
        c.name :: rest'.map (fun x => x.name)).Nodup := by
      rw [← hmapg]; exact hnames
    have hnotdone : c.name ∉ done.map (fun x => x.name) := by
      intro hmem
      exact (List.nodup_append.mp hnd).2.2 hmem (List.mem_cons_self _ _)
    have hdone_ne : ∀ p ∈ done, p.name ≠ c.name := by
      intro p hp h
      exact hnotdone (h ▸ List.mem_map_of_mem (fun x => x.name) hp)
    have hrest_notdone : ∀ p ∈ (c :: rest'), p.name ∉ done.map (fun x => x.name) := by
      intro p hp hmem
      have hp2 : p.name ∈ c.name :: rest'.map (fun x => x.name) := by
        simpa using List.mem_map_of_mem (fun x => x.name) hp
      exact (List.nodup_append.mp hnd).2.2 hmem hp2
    have hbadtc : bad ∈ tc := (hI4 bad).mpr (Or.inl rfl)
    have hstaleMem : c.name ∈ st.stale := by
      rw [hI5]
      exact List.mem_map_of_mem (fun x => x.name) hcg
    have hstale : st.stale.contains c.name = true :=
      (strContains_iff _ _).mpr hstaleMem
    have hwf2 : (c.inputs.all
          (fun i => (env0keys ++ (done.map (fun x => x.outputs)).flatten).contains i) = true)
        ∧ wfFromB ((env0keys ++ (done.map (fun x => x.outputs)).flatten) ++ c.outputs)
            rest' = true := by
      have hq := hwf
      unfold wfFromB at hq
      rw [Bool.and_eq_true] at hq
      exact hq
    have hg' : g = (done ++ [c]) ++ rest' := by
      rw [hg]; simp
    have hwfnext : wfFromB (env0keys ++
        (((done ++ [c]).map (fun x => x.outputs)).flatten)) rest' = true := by
      have harr : env0keys ++ (((done ++ [c]).map (fun x => x.outputs)).flatten) =
          (env0keys ++ (done.map (fun x => x.outputs)).flatten) ++ c.outputs := by
        simp
      rw [harr]
      exact hwf2.2
    rw [List.foldl_cons]
    by_cases hcond : (tc.contains c.name || c.inputs.any (fun i => tn.contains i)) = true
    · -- tainted step: the cell ends Errored and withholds its outputs
      have hclos : closureAux (c :: rest') tc tn =
          closureAux rest' (tc ++ [c.name]) (tn ++ c.outputs) := by
        simp only [closureAux]
        rw [if_pos hcond]
      have hsplit : c.name = bad ∨ ∃ i ∈ c.inputs, i ∈ tn := by
        have hcond2 := hcond
        rw [Bool.or_eq_true] at hcond2
        rcases hcond2 with h | h
        · left
          have hmemtc : c.name ∈ tc := (strContains_iff _ _).mp h
          rcases (hI4 c.name).mp hmemtc with h' | ⟨p, hp, hpn, _⟩
          · exact h'
          · exact absurd (hpn ▸ List.mem_map_of_mem (fun x => x.name) hp) hnotdone
        · right
          obtain ⟨i, hi, hitn⟩ := List.any_eq_true.mp h
          exact ⟨i, hi, (strContains_iff _ _).mp hitn⟩
      have hstep : ∃ ran', evalStep g (st, ran) c =
          (⟨st.env, setSt st.status c.name CellState.Errored, st.stale⟩, ran') := by
        rcases hsplit with hcbad | ⟨i, hi, hitn⟩
        · by_cases hprod : (c.inputs.any (fun i => producerErrored g st.status i)) = true
          · exact ⟨ran, by simp [evalStep, hstale, hstaleMem, hprod]⟩
          · rw [Bool.not_eq_true] at hprod
            by_cases havail : (c.inputs.all (fun i => (st.env i).isSome)) = true
            · obtain ⟨e, he⟩ := hbad c hcg hcbad st.env
              exact ⟨ran ++ [c.name],
                by simp [evalStep, hstale, hstaleMem, hprod, havail, he]⟩
            · rw [Bool.not_eq_true] at havail
              exact ⟨ran, by simp [evalStep, hstale, hstaleMem, hprod, havail]⟩
        · have hprod : (c.inputs.any (fun i => producerErrored g st.status i)) = true := by
            rw [List.any_eq_true]
            refine ⟨i, hi, ?_⟩
            obtain ⟨p, hp, hptc, hip⟩ := (hI3 i).mp hitn
            unfold producerErrored
            rw [List.any_eq_true]
            refine ⟨p, by rw [hg]; exact List.mem_append_left _ hp, ?_⟩
            rw [Bool.and_eq_true, strContains_iff, isErroredSt_iff]
            refine ⟨hip, ?_⟩
            rw [hI1 p.name]
            simp [List.mem_map_of_mem (fun x => x.name) hp, hptc]
          exact ⟨ran, by simp [evalStep, hstale, hstaleMem, hprod]⟩
      obtain ⟨ran', hstepe⟩ := hstep
      rw [hstepe, hclos]
      apply ih (done ++ [c]) _ ran' (tc ++ [c.name]) (tn ++ c.outputs) hg' hwfnext
      · -- I1
        intro x
        by_cases hx : x = c.name
        · subst hx
          simp [setSt]
        · simp only [setSt, if_neg hx]
          rw [hI1 x]
          have h1 : (x ∈ (done ++ [c]).map (fun y => y.name)) =
              (x ∈ done.map (fun y => y.name)) := by
            simp [hx]
          have h2 : (x ∈ tc ++ [c.name]) = (x ∈ tc) := by
            simp [hx]
          simp only [h1, h2]
      · -- I2
        intro i
        rw [hI2 i]
        constructor
        · rintro (h | ⟨p, hp, hpn, hip⟩)
          · exact Or.inl h
          · refine Or.inr ⟨p, List.mem_append_left _ hp, ?_, hip⟩
            simp only [List.mem_append, List.mem_singleton]
            rintro (h' | h')
            · exact hpn h'
            · exact hdone_ne p hp h'
        · rintro (h | ⟨p, hp, hpn, hip⟩)
          · exact Or.inl h
          · rcases List.mem_append.mp hp with hp' | hp'
            · refine Or.inr ⟨p, hp', ?_, hip⟩
              intro h'
              exact hpn (List.mem_append_left _ h')
            · have hpc : p = c := by simpa using hp'
              subst hpc
              exact absurd (List.mem_append_right _ (by simp)) hpn
      · -- I3
        intro i
        constructor
        · intro h
          rcases List.mem_append.mp h with h' | h'
          · obtain ⟨p, hp, hptc, hip⟩ := (hI3 i).mp h'
            exact ⟨p, List.mem_append_left _ hp, List.mem_append_left _ hptc, hip⟩
          · exact ⟨c, List.mem_append_right _ (by simp),
              List.mem_append_right _ (by simp), h'⟩
        · rintro ⟨p, hp, hptc, hip⟩
          rcases List.mem_append.mp hp with hp' | hp'
          · rcases List.mem_append.mp hptc with htc' | htc'
            · exact List.mem_append_left _ ((hI3 i).mpr ⟨p, hp', htc', hip⟩)
            · exact absurd (by simpa using htc') (hdone_ne p hp')
          · have hpc : p = c := by simpa using hp'
            subst hpc
            exact List.mem_append_right _ hip
      · -- I4
        intro x
        constructor
        · intro hx
          rcases List.mem_append.mp hx with hx' | hx'
          · rcases (hI4 x).mp hx' with h' | ⟨p, hp, hpn, _⟩
            · exact Or.inl h'
            · exact Or.inr ⟨p, List.mem_append_left _ hp, hpn,
                List.mem_append_left _ hx'⟩
          · have hxc : x = c.name := by simpa using hx'
            exact Or.inr ⟨c, List.mem_append_right _ (by simp), hxc.symm,
              List.mem_append_right _ (by simpa using hxc)⟩
        · rintro (h | ⟨p, hp, hpn, hptc⟩)
          · exact List.mem_append_left _ (h ▸ hbadtc)
          · exact hptc
      · -- I5
        exact hI5
    · -- clean step: the cell recomputes and becomes Fresh
      have hcondf : (tc.contains c.name ||
          c.inputs.any (fun i => tn.contains i)) = false :=
        Bool.eq_false_iff.mpr hcond
      have hclos : closureAux (c :: rest') tc tn = closureAux rest' tc tn := by
        simp only [closureAux]
        rw [if_neg hcond]
      obtain ⟨hnottc, hnotn⟩ := Bool.or_eq_false_iff.mp hcondf
      have hcnottc : c.name ∉ tc := by
        intro h
        rw [(strContains_iff tc c.name).mpr h] at hnottc
        exact Bool.noConfusion hnottc
      have hinotn : ∀ i ∈ c.inputs, i ∉ tn := by
        intro i hi h
        have hh : c.inputs.any (fun j => tn.contains j) = true :=
          List.any_eq_true.mpr ⟨i, hi, (strContains_iff _ _).mpr h⟩
        rw [hh] at hnotn
        exact Bool.noConfusion hnotn
      have hcne : c.name ≠ bad := fun h => hcnottc (h ▸ hbadtc)
      have hprod : (c.inputs.any (fun i => producerErrored g st.status i)) = false := by
        rw [Bool.eq_false_iff]
        intro hany
        obtain ⟨i, hi, hpe⟩ := List.any_eq_true.mp hany
        unfold producerErrored at hpe
        obtain ⟨p, hpg, hpp⟩ := List.any_eq_true.mp hpe
        rw [Bool.and_eq_true, strContains_iff, isErroredSt_iff] at hpp
        obtain ⟨hip, herr⟩ := hpp
        rw [hI1 p.name] at herr
        rcases (by rw [hg] at hpg; exact List.mem_append.mp hpg :
            p ∈ done ∨ p ∈ c :: rest') with hpd | hpr
        · rw [if_pos (List.mem_map_of_mem (fun x => x.name) hpd)] at herr
          by_cases hptc : p.name ∈ tc
          · exact hinotn i hi ((hI3 i).mpr ⟨p, hpd, hptc, hip⟩)
          · rw [if_neg hptc] at herr
            exact CellState.noConfusion herr
        · rw [if_neg (hrest_notdone p hpr)] at herr
          exact CellState.noConfusion herr
      have havail : (c.inputs.all (fun i => (st.env i).isSome)) = true := by
        rw [List.all_eq_true]
        intro i hi
        have hmem : i ∈ env0keys ++ (done.map (fun x => x.outputs)).flatten :=
          (strContains_iff _ _).mp ((List.all_eq_true.mp hwf2.1) i hi)
        rcases List.mem_append.mp hmem with hm | hm
        · exact (hI2 i).mpr (Or.inl (henv i hm))
        · obtain ⟨l, hl, hil⟩ := List.mem_flatten.mp hm
          obtain ⟨p, hp, hpl⟩ := List.mem_map.mp hl
          have hpntc : p.name ∉ tc := by
            intro hptc
            exact hinotn i hi ((hI3 i).mpr ⟨p, hp, hptc, hpl ▸ hil⟩)
          exact (hI2 i).mpr (Or.inr ⟨p, hp, hpntc, hpl ▸ hil⟩)
      obtain ⟨outs, he, hkeys⟩ := hok c hcg hcne st.env
      have hstepe : evalStep g (st, ran) c =
          (⟨updateEnv st.env outs, setSt st.status c.name CellState.Fresh, st.stale⟩,
           ran ++ [c.name]) := by
        simp [evalStep, hstale, hstaleMem, hprod, havail, he]
      rw [hstepe, hclos]
      apply ih (done ++ [c]) _ (ran ++ [c.name]) tc tn hg' hwfnext
      · -- I1
        intro x
        by_cases hx : x = c.name
        · subst hx
          simp [setSt, hcnottc]
        · simp only [setSt, if_neg hx]
          rw [hI1 x]
          have h1 : (x ∈ (done ++ [c]).map (fun y => y.name)) =
              (x ∈ done.map (fun y => y.name)) := by
            simp [hx]
          simp only [h1]
      · -- I2
        intro i
        rw [updateEnv_isSome, hkeys, hI2 i]
        constructor
        · rintro (h | h | ⟨p, hp, hpn, hip⟩)
          · exact Or.inr ⟨c, List.mem_append_right _ (by simp), hcnottc, h⟩
          · exact Or.inl h
          · exact Or.inr ⟨p, List.mem_append_left _ hp, hpn, hip⟩
        · rintro (h | ⟨p, hp, hpn, hip⟩)
          · exact Or.inr (Or.inl h)
          · rcases List.mem_append.mp hp with hp' | hp'
            · exact Or.inr (Or.inr ⟨p, hp', hpn, hip⟩)
            · have hpc : p = c := by simpa using hp'
              subst hpc
              exact Or.inl hip
      · -- I3
        intro i
        rw [hI3 i]
        constructor
        · rintro ⟨p, hp, hptc, hip⟩
          exact ⟨p, List.mem_append_left _ hp, hptc, hip⟩
        · rintro ⟨p, hp, hptc, hip⟩
          rcases List.mem_append.mp hp with hp' | hp'
          · exact ⟨p, hp', hptc, hip⟩
          · have hpc : p = c := by simpa using hp'
            subst hpc
            exact absurd hptc hcnottc
      · -- I4
        intro x
        constructor
        · intro hx
          rcases (hI4 x).mp hx with h' | ⟨p, hp, hpn, hptc⟩
          · exact Or.inl h'
          · exact Or.inr ⟨p, List.mem_append_left _ hp, hpn, hptc⟩
        · rintro (h | ⟨p, hp, hpn, hptc⟩)
          · exact h ▸ hbadtc
          · exact hptc
      · -- I5
        exact hI5

/-- Seeds survive the closure computation. -/
theorem closureAux_tc_subset (l : List RCell) (tc tn : List String) :
    tc ⊆ (closureAux l tc tn).1 := by
  induction l generalizing tc tn with
  | nil => exact fun x hx => hx
  | cons c rest ih =>
    unfold closureAux
    by_cases h : (tc.contains c.name || c.inputs.any (fun i => tn.contains i)) = true
    · rw [if_pos h]
      exact fun x hx => ih _ _ (List.mem_append_left _ hx)
    · rw [if_neg h]
      exact ih _ _

/-- Claim C8: if one cell's compute function raises during `evaluate()`
(and the remaining registered cells' compute functions succeed with their
declared outputs, over a well-formed, duplicate-free registration), the
failure is contained: the failing cell and all the cells of its forward
transitive closure end `Errored`, every other cell still computes
normally and ends `Fresh`, and `evaluate()` itself returns normally (it
is a total function assigning a terminal state to every cell). -/
theorem c8_fault_containment
    (g : List RCell) (env0 : String → Option PyVal) (env0keys : List String)
    (bad : String)
    (henv : ∀ i, i ∈ env0keys → (env0 i).isSome = true)
    (hnames : (g.map (fun c => c.name)).Nodup)
    (hwf : wfFromB env0keys g = true)
    (hmem : bad ∈ g.map (fun c => c.name))
    (hbad : ∀ c ∈ g, c.name = bad →
      ∀ f, ∃ e, c.compute f = Except.error e)
    (hok : ∀ c ∈ g, c.name ≠ bad →
      ∀ f, ∃ outs, c.compute f = Except.ok outs ∧
        outs.map (fun p => p.1) = c.outputs) :
    ((evaluate g (initState g env0)).1.status bad = CellState.Errored) ∧
    (∀ c ∈ g, c.name ∈ taintedSet g bad →
      (evaluate g (initState g env0)).1.status c.name = CellState.Errored) ∧
    (∀ c ∈ g, c.name ∉ taintedSet g bad →
      (evaluate g (initState g env0)).1.status c.name = CellState.Fresh) := by
  have hmain := evalFold_status g env0 env0keys bad henv hnames hbad hok
    g [] (initState g env0) [] [bad] []
    (by simp)
    (by simpa using hwf)
    (by intro nm; simp [initState])
    (by intro i; simp [initState])
    (by intro i; simp)
    (by intro nm; simp)
    rfl
  have hmain2 : ∀ nm, ((g.foldl (evalStep g) (initState g env0, [])).1.status nm) =
      (if nm ∈ g.map (fun c => c.name) then
        (if nm ∈ taintedSet g bad then CellState.Errored else CellState.Fresh)
      else CellState.Stale) := hmain
  have heval : ∀ nm, (evaluate g (initState g env0)).1.status nm =
      ((g.foldl (evalStep g) (initState g env0, [])).1.status nm) := by
    intro nm; rfl
  have hbadin : bad ∈ taintedSet g bad :=
    closureAux_tc_subset g [bad] [] (List.mem_singleton.mpr rfl)
  refine ⟨?_, ?_, ?_⟩
  · rw [heval bad, hmain2 bad, if_pos hmem, if_pos hbadin]
  · intro c hc htc
    rw [heval c.name, hmain2 c.name,
      if_pos (List.mem_map_of_mem (fun x => x.name) hc), if_pos htc]
  · intro c hc htc
    rw [heval c.name, hmain2 c.name,
      if_pos (List.mem_map_of_mem (fun x => x.name) hc), if_neg htc]

/-- A failing cell for the fault-containment witness. -/
def cellX : RCell := ⟨"X", [], ["x"], fun _ => Except.error "boom"⟩

/-- An unrelated sibling cell for the fault-containment witness. -/
def cellY : RCell := ⟨"Y", [], ["y"], fun _ => Except.ok [("y", PyVal.num 1)]⟩

/-- A downstream dependent of the failing cell, for the witness. -/
def cellZ : RCell := ⟨"Z", ["x"], [], fun _ => Except.ok []⟩

/-- A three-cell graph in which `X` raises, `Y` is an unrelated sibling
and `Z` depends on `X`'s output. -/
def wGraph : List RCell := [cellX, cellY, cellZ]

/-- An empty value-cell environment. -/
def emptyEnv : String → Option PyVal := fun _ => Option.none

/-- Witness for C8: in the concrete graph `X → Z` with sibling `Y`,
where `X` raises, `X` and `Z` end `Errored` while `Y` ends `Fresh`. -/
theorem c8_fault_containment_witness :
    (evaluate wGraph (initState wGraph emptyEnv)).1.status "X" = CellState.Errored ∧
    (evaluate wGraph (initState wGraph emptyEnv)).1.status "Z" = CellState.Errored ∧
    (evaluate wGraph (initState wGraph emptyEnv)).1.status "Y" = CellState.Fresh := by
  have h := c8_fault_containment wGraph emptyEnv [] "X"
    (by intro i hi; cases hi)
    (by decide)
    (by decide)
    (by decide)
    (by
      intro c hc hcn f
      have hc' : c = cellX ∨ c = cellY ∨ c = cellZ := by
        simpa [wGraph] using hc
      rcases hc' with rfl | rfl | rfl
      · exact ⟨"boom", rfl⟩
      · exact absurd hcn (by decide)
      · exact absurd hcn (by decide))
    (by
      intro c hc hcn f
      have hc' : c = cellX ∨ c = cellY ∨ c = cellZ := by
        simpa [wGraph] using hc
      rcases hc' with rfl | rfl | rfl
      · exact absurd rfl hcn
      · exact ⟨[("y", PyVal.num 1)], rfl, rfl⟩
      · exact ⟨[], rfl, rfl⟩)
  refine ⟨h.1, ?_, ?_⟩
  · exact h.2.1 cellZ (by simp [wGraph]) (by decide)
  · exact h.2.2 cellY (by simp [wGraph]) (by decide)
